import Mathlib

/-!
Verification development for the decoder training script `train_dec.py` of the
PPG-Diff-VC repository.

The script's orchestration loop (its `__main__` block) is shallowly embedded:
each observable action of one process (one rank) — per-batch training steps,
the per-epoch log write, the primary-only evaluation/artifact-dump pass and the
checkpoint save — becomes an element of an event trace.  The mode flag set by
`model.train()` / `model.eval()` and the gradient-tracking flag toggled by
`with torch.no_grad():` are threaded through the emission of events, so that
each emitted inference/dump/save event records the ambient mode and
gradient-tracking state at the moment it is performed.

Neural-network computations are abstracted by oracles: the per-batch scalar
loss is an arbitrary function of the batch, and validation samples are opaque.
`np.mean` of an empty sequence returns NaN; this is embedded as `Option ℚ`
with `none` standing for NaN.

The checkpoint protocol (lines 96-98, 123-124 and 179-186 of the script) is
embedded separately as pure functions over a record model of the module:
`state_dict` of a module whose `encoder` child has been set to `None` omits
the encoder keys, and `load_state_dict` copies values by qualified key.
-/

namespace PPGDiffVC

/-- A training / validation sample, opaque to the orchestration loop. -/
abbrev Sample := Nat

/-- Command-line configuration of one process of the run
(`--local_rank`, `--epoch-start`, `-e`, `-b`, `-s`, plus `params.test_size`). -/
structure Config where
  localRank : Nat
  epochStart : Nat
  epochs : Nat
  batchSize : Nat
  saveEvery : Nat
  testSize : Nat
deriving DecidableEq

/-- The two module modes toggled by `model.train()` and `model.eval()`. -/
inductive Mode
  | train
  | eval
deriving DecidableEq

/-- Ambient per-process machine state threaded through event emission:
the module mode and whether gradient tracking is enabled
(`torch.no_grad()` disables it for the extent of the `with` block). -/
structure MState where
  mode : Mode
  gradEnabled : Bool
deriving DecidableEq

/-- Files written by the evaluation / artifact-dump pass, keyed exactly as the
script keys its filenames: originals and the PPG plot by sample index only
(`original_{i}.png`, `ppg_{i}.png`, `original_{i}.wav`), reconstructions by
sample index and epoch (`reconstructed_{i}_e{epoch}.png` / `.wav`). -/
inductive Artifact
  | originalPlot (i : Nat)
  | ppgPlot (i : Nat)
  | originalAudio (i : Nat)
  | reconPlot (i : Nat) (epoch : Nat)
  | reconAudio (i : Nat) (epoch : Nat)
deriving DecidableEq

/-- Observable events of one process during the run. -/
inductive Ev
  | modelTrain
  | zeroGrad
  | computeLoss (v : ℚ)
  | backward
  | clipGradDecoder (maxNorm : ℚ)
  | optimStep
  | appendLoss (v : ℚ)
  | logWrite (epoch : Nat) (loss : Option ℚ)
  | modelEval
  | inference (i : Nat) (mode : Mode) (gradEnabled : Bool)
  | dump (a : Artifact) (mode : Mode) (gradEnabled : Bool)
  | saveCkpt (epoch : Nat) (mode : Mode) (gradEnabled : Bool)
deriving DecidableEq

/-- `np.mean` over the collected per-batch losses; `none` models the NaN
returned (with a warning, not an exception) on an empty array. -/
def npMean (xs : List ℚ) : Option ℚ :=
  if xs.isEmpty then none else some (xs.sum / xs.length)

/-- Events of one per-batch training step, lines 138-144 of the script:
`model.zero_grad()`, `loss = model.module.compute_loss(...)`,
`loss.backward()`, `clip_grad_norm_(model.module.decoder.parameters(),
max_norm=1)`, `optimizer.step()`, `losses.append(loss.item())`. -/
def trainStepEvents (v : ℚ) : List Ev :=
  [Ev.zeroGrad, Ev.computeLoss v, Ev.backward, Ev.clipGradDecoder 1,
   Ev.optimStep, Ev.appendLoss v]

/-- Structural-recursion worker for `dataBatches` (the fuel argument is an
upper bound on the number of samples, used only to make the recursion
structural; `dataBatches` instantiates it with the list length). -/
def chunkAux (b : Nat) : Nat → List Sample → List (List Sample)
  | 0, _ => []
  | fuel + 1, l =>
    if 0 < b ∧ b ≤ l.length then l.take b :: chunkAux b fuel (l.drop b)
    else []

/-- The batches yielded by `DataLoader(train_set, batch_size=batch_size,
sampler=train_sampler, ..., drop_last=True)` over one rank's shard for one
epoch: consecutive chunks of exactly `b` samples, the trailing partial chunk
dropped. -/
def dataBatches (b : Nat) (l : List Sample) : List (List Sample) :=
  chunkAux b l.length l

/-- Per-epoch batch-loss sequence: the loss oracle applied to each batch of
the epoch's shard (the shard itself depends on the epoch through
`train_loader.sampler.set_epoch(epoch)`). -/
def epochBatchLosses (cfg : Config) (shardOf : Nat → List Sample)
    (lossOf : List Sample → ℚ) (epoch : Nat) : List ℚ :=
  (dataBatches cfg.batchSize (shardOf epoch)).map lossOf

/-- Events emitted for the validation sample at index `i` inside the
evaluation loop, lines 164-176: the inference call, then — only when
`epoch == save_every` — the original mel plot, the PPG plot and the original
audio, then the reconstructed plot and reconstructed audio.  Each event
records the ambient machine state `st`. -/
def evalSampleEvents (cfg : Config) (epoch i : Nat) (st : MState) : List Ev :=
  Ev.inference i st.mode st.gradEnabled ::
    ((if epoch = cfg.saveEvery then
        [Ev.dump (Artifact.originalPlot i) st.mode st.gradEnabled,
         Ev.dump (Artifact.ppgPlot i) st.mode st.gradEnabled,
         Ev.dump (Artifact.originalAudio i) st.mode st.gradEnabled]
      else [])
     ++ [Ev.dump (Artifact.reconPlot i epoch) st.mode st.gradEnabled,
         Ev.dump (Artifact.reconAudio i epoch) st.mode st.gradEnabled])

/-- The `for i, (wav, mel, c) in enumerate(mels):` loop of lines 161-176,
starting at index `j`: it breaks as soon as `i >= test_size` and otherwise
stops at the natural end of the validation list. -/
def evalLoopFrom (cfg : Config) (epoch : Nat) (st : MState) :
    Nat → List Sample → List Ev
  | _, [] => []
  | j, _s :: rest =>
    if cfg.testSize ≤ j then []
    else evalSampleEvents cfg epoch j st ++ evalLoopFrom cfg epoch st (j + 1) rest

/-- The tail of one epoch iteration, lines 153-186: nothing on non-primary
ranks; on rank 0, `continue` unless `epoch % save_every == 0`, otherwise
`model.eval()`, the no-grad evaluation loop over the validation set, and the
checkpoint save (performed after the `with torch.no_grad():` block, so with
gradient tracking enabled again). -/
def epochTail (cfg : Config) (valSet : List Sample) (epoch : Nat) : List Ev :=
  if cfg.localRank = 0 then
    if epoch % cfg.saveEvery > 0 then []
    else
      Ev.modelEval ::
        (evalLoopFrom cfg epoch { mode := Mode.eval, gradEnabled := false } 0 valSet
         ++ [Ev.saveCkpt epoch Mode.eval true])
  else []

/-- Events of one full epoch iteration, lines 129-186: `model.train()`, the
per-batch training steps, the unconditional append of
`'Epoch %d: loss = %.4f'` (with the mean of the epoch's losses) to
`logs_dec/train_dec.log`, then the primary-only evaluation / checkpoint
tail. -/
def epochEvents (cfg : Config) (batchLosses : List ℚ) (valSet : List Sample)
    (epoch : Nat) : List Ev :=
  Ev.modelTrain ::
    (batchLosses.flatMap trainStepEvents
     ++ Ev.logWrite epoch (npMean batchLosses) :: epochTail cfg valSet epoch)

/-- The epochs visited by `for epoch in range(epoch_start, epochs + epoch_start):`. -/
def epochRange (cfg : Config) : List Nat :=
  (List.range cfg.epochs).map (fun k => cfg.epochStart + k)

/-- The event trace of one whole run of one process. -/
def runEvents (cfg : Config) (shardOf : Nat → List Sample)
    (lossOf : List Sample → ℚ) (valSet : List Sample) : List Ev :=
  (epochRange cfg).flatMap
    (fun e => epochEvents cfg (epochBatchLosses cfg shardOf lossOf e) valSet e)

/-- Matches the log line `Epoch %d: loss = %.4f` for epoch `e`. -/
def isLogWriteFor (e : Nat) : Ev → Bool
  | Ev.logWrite e' _ => e == e'
  | _ => false

/-- Matches the dump of `original_{i}.png`. -/
def isOriginalPlotFor (i : Nat) : Ev → Bool
  | Ev.dump (Artifact.originalPlot j) _ _ => i == j
  | _ => false

/-- Matches the dump of `original_{i}.wav`. -/
def isOriginalAudioFor (i : Nat) : Ev → Bool
  | Ev.dump (Artifact.originalAudio j) _ _ => i == j
  | _ => false

/-- Matches the dump of `ppg_{i}.png`. -/
def isPpgPlotFor (i : Nat) : Ev → Bool
  | Ev.dump (Artifact.ppgPlot j) _ _ => i == j
  | _ => false

/-- Matches any reconstructed-mel plot dump. -/
def isReconPlot : Ev → Bool
  | Ev.dump (Artifact.reconPlot _ _) _ _ => true
  | _ => false

/-- Matches any reconstructed-audio dump. -/
def isReconAudio : Ev → Bool
  | Ev.dump (Artifact.reconAudio _ _) _ _ => true
  | _ => false

/-- Matches an `optimizer.step()` event. -/
def isOptimStep : Ev → Bool
  | Ev.optimStep => true
  | _ => false

/-- The epoch numbers of the checkpoint files `vc_<epoch>.pt` saved in a
trace, in the order they are written. -/
def ckptEpochs (tr : List Ev) : List Nat :=
  tr.filterMap (fun ev =>
    match ev with
    | Ev.saveCkpt e _ _ => some e
    | _ => none)

/-! ### Checkpoint protocol data model -/

/-- Qualified key of one entry of a `state_dict`: a parameter name inside the
`encoder` or the `decoder` sub-module (`"encoder." + name` / `"decoder." + name`). -/
inductive QKey
  | enc (name : Nat)
  | dec (name : Nat)
deriving DecidableEq

/-- The part of the `DiffVC` module relevant to checkpointing: the `encoder`
child (settable to `None`, as lines 179-180 do) and the decoder-side
parameters, as association lists from parameter name to tensor value. -/
structure ModelModule where
  encoder : Option (List (Nat × Int))
  decoder : List (Nat × Int)
deriving DecidableEq

/-- `model.module.state_dict()`: qualified keys of all child parameters; a
child set to `None` contributes no keys. -/
def ModelModule.state_dict (m : ModelModule) : List (QKey × Int) :=
  (match m.encoder with
   | none => []
   | some enc => enc.map (fun p => (QKey.enc p.1, p.2)))
  ++ m.decoder.map (fun p => (QKey.dec p.1, p.2))

/-- First-match association lookup in a serialized `state_dict`. -/
def lookupVal (sd : List (QKey × Int)) (k : QKey) : Option Int :=
  match sd with
  | [] => none
  | p :: rest => if p.1 = k then some p.2 else lookupVal rest k

/-- `model.load_state_dict(checkpt['state_dict'])` (line 98): each parameter
of each present child takes the dict value at its qualified key (the value is
left unchanged when the key is absent). -/
def ModelModule.load_state_dict (m : ModelModule) (sd : List (QKey × Int)) :
    ModelModule :=
  { encoder := m.encoder.map (fun enc =>
      enc.map (fun p => (p.1, (lookupVal sd (QKey.enc p.1)).getD p.2))),
    decoder := m.decoder.map (fun p =>
      (p.1, (lookupVal sd (QKey.dec p.1)).getD p.2)) }

/-- Adam optimizer state: step count and per-parameter moment buffers. -/
structure OptimState where
  stepCount : Nat
  moments : List (Nat × Int)
deriving DecidableEq

/-- `optimizer.load_state_dict(checkpt['optim'])` (line 124): the loaded
state replaces the freshly initialized one. -/
def loadOptimState (_current loaded : OptimState) : OptimState :=
  loaded

/-- The on-disk checkpoint layout `{'state_dict': ..., 'optim': ...}`. -/
structure Checkpoint where
  state_dict : List (QKey × Int)
  optim : OptimState
deriving DecidableEq

/-- The checkpoint save of lines 179-186: stash the encoder reference, set
the `encoder` child to `None`, build the `{'state_dict', 'optim'}` dict,
`torch.save` it, and reattach the stashed encoder.  Returns the model as it
stands after the save together with the file contents. -/
def saveCheckpoint (m : ModelModule) (opt : OptimState) :
    ModelModule × Checkpoint :=
  let encoder_exclude := m.encoder
  let detached : ModelModule := { m with encoder := none }
  let ckpt : Checkpoint := { state_dict := detached.state_dict, optim := opt }
  ({ detached with encoder := encoder_exclude }, ckpt)

/-- True when a serialized key belongs to the decoder sub-module. -/
def QKey.isDec : QKey → Bool
  | QKey.dec _ => true
  | QKey.enc _ => false

/-! ### Concrete instances used by witnesses and counterexamples -/

/-- A non-primary rank's configuration: one epoch, defaults otherwise. -/
def cfgRank1 : Config :=
  { localRank := 1, epochStart := 1, epochs := 1, batchSize := 1,
    saveEvery := 1, testSize := 1 }

/-- A resumed run: `--epoch-start 5 -e 3 -s 1` on the primary rank. -/
def cfgResume : Config :=
  { localRank := 0, epochStart := 5, epochs := 3, batchSize := 1,
    saveEvery := 1, testSize := 1 }

/-- The primary rank with the default fresh-run configuration. -/
def cfgPrimary : Config :=
  { localRank := 0, epochStart := 1, epochs := 2, batchSize := 2,
    saveEvery := 1, testSize := 2 }

/-- A live model with one encoder parameter and two decoder parameters. -/
def mLive : ModelModule :=
  { encoder := some [(0, 11)], decoder := [(0, 3), (1, -4)] }

/-- A freshly constructed model at resume time: `load_encoder` has not run
yet, decoder parameters still at their initial values. -/
def mFresh : ModelModule :=
  { encoder := none, decoder := [(0, 0), (1, 0)] }

/-- A concrete optimizer state. -/
def optLive : OptimState :=
  { stepCount := 42, moments := [(0, 7), (1, -2)] }

/-- A freshly constructed optimizer state at resume time. -/
def optFresh : OptimState :=
  { stepCount := 0, moments := [] }

/-! ### General helper lemmas -/

theorem countP_flatMap (p : Ev → Bool) (f : ℚ → List Ev) (l : List ℚ) :
    (l.flatMap f).countP p = (l.map (fun x => (f x).countP p)).sum := by
  induction l with
  | nil => rfl
  | cons x xs ih => simp [List.flatMap_cons, List.countP_append, ih]

theorem countP_flatMap_nat (p : Ev → Bool) (f : Nat → List Ev) (l : List Nat) :
    (l.flatMap f).countP p = (l.map (fun x => (f x).countP p)).sum := by
  induction l with
  | nil => rfl
  | cons x xs ih => simp [List.flatMap_cons, List.countP_append, ih]

theorem sum_map_ite_of_not_mem (l : List Nat) (e c : Nat) (he : e ∉ l) :
    (l.map (fun x => if x = e then c else 0)).sum = 0 := by
  induction l with
  | nil => rfl
  | cons x xs ih =>
    simp only [List.mem_cons, not_or] at he
    rw [List.map_cons, List.sum_cons,
      if_neg (fun hxe : x = e => he.1 hxe.symm), ih he.2]

theorem sum_map_ite_of_nodup (l : List Nat) (e c : Nat) (hl : l.Nodup) :
    (l.map (fun x => if x = e then c else 0)).sum = if e ∈ l then c else 0 := by
  induction l with
  | nil => rfl
  | cons x xs ih =>
    rcases List.nodup_cons.mp hl with ⟨hx, hxs⟩
    by_cases hxe : x = e
    · subst hxe
      simp [sum_map_ite_of_not_mem xs x c hx]
    · simp only [List.map_cons, List.sum_cons, if_neg hxe, Nat.zero_add, ih hxs,
        List.mem_cons]
      have : (e = x ∨ e ∈ xs) ↔ e ∈ xs := by
        constructor
        · rintro (h | h)
          · exact absurd h.symm hxe
          · exact h
        · exact Or.inr
      rw [if_congr this rfl rfl]

/-! ### Batching lemmas (`DataLoader` with `drop_last=True`) -/

theorem chunkAux_spec (b : Nat) (hb : 0 < b) :
    ∀ (fuel : Nat) (l : List Sample), l.length ≤ fuel →
      (∀ c ∈ chunkAux b fuel l, c.length = b)
      ∧ (chunkAux b fuel l).length = l.length / b
      ∧ (chunkAux b fuel l).flatten = l.take (b * (l.length / b)) := by
  intro fuel
  induction fuel with
  | zero =>
    intro l hl
    have hl0 : l = [] := List.length_eq_zero.mp (Nat.le_zero.mp hl)
    subst hl0
    refine ⟨(by intro c hc; cases hc), ?_, ?_⟩ <;> simp [chunkAux]
  | succ fuel ih =>
    intro l hl
    by_cases hlen : b ≤ l.length
    · have hcond : 0 < b ∧ b ≤ l.length := ⟨hb, hlen⟩
      have hdrop : (l.drop b).length ≤ fuel := by
        rw [List.length_drop]
        omega
      obtain ⟨ihA, ihB, ihC⟩ := ih (l.drop b) hdrop
      have hdiv : l.length / b = (l.length - b) / b + 1 :=
        Nat.div_eq_sub_div hb hlen
      constructor
      · intro c hc
        rw [chunkAux, if_pos hcond] at hc
        rcases List.mem_cons.mp hc with h | h
        · subst h
          simp [List.length_take, Nat.min_eq_left hlen]
        · exact ihA c h
      constructor
      · rw [chunkAux, if_pos hcond]
        simp only [List.length_cons, ihB, List.length_drop]
        omega
      · rw [chunkAux, if_pos hcond]
        simp only [List.flatten_cons, ihC, List.length_drop]
        have hmul : b * (l.length / b) = b + b * ((l.length - b) / b) := by
          rw [hdiv, Nat.mul_add, Nat.mul_one, Nat.add_comm]
        rw [hmul, List.take_add]
    · have hcond : ¬(0 < b ∧ b ≤ l.length) := fun h => hlen h.2
      have hlt : l.length < b := Nat.lt_of_not_le hlen
      have hdiv : l.length / b = 0 := Nat.div_eq_of_lt hlt
      refine ⟨(by intro c hc; rw [chunkAux, if_neg hcond] at hc; cases hc), ?_, ?_⟩
      · rw [chunkAux, if_neg hcond, hdiv]
        rfl
      · rw [chunkAux, if_neg hcond, hdiv]
        simp

theorem dataBatches_spec (b : Nat) (l : List Sample) (hb : 0 < b) :
    (∀ c ∈ dataBatches b l, c.length = b)
    ∧ (dataBatches b l).length = l.length / b
    ∧ (dataBatches b l).flatten = l.take (b * (l.length / b)) :=
  chunkAux_spec b hb l.length l (Nat.le_refl _)

theorem dataBatches_eq_nil_of_short (b : Nat) (l : List Sample)
    (h : l.length < b) : dataBatches b l = [] := by
  have hcond : ¬(0 < b ∧ b ≤ l.length) := fun hc => Nat.not_le.mpr h hc.2
  cases hl : l.length with
  | zero =>
    rw [dataBatches, hl]
    rfl
  | succ n =>
    rw [dataBatches, hl, chunkAux, hl, if_neg (by rw [hl] at hcond; exact hcond)]

/-! ### Evaluation-loop characterization -/

theorem evalLoopFrom_eq (cfg : Config) (epoch : Nat) (st : MState) :
    ∀ (l : List Sample) (j : Nat),
      evalLoopFrom cfg epoch st j l
        = (List.range' j (min (cfg.testSize - j) l.length)).flatMap
            (fun i => evalSampleEvents cfg epoch i st) := by
  intro l
  induction l with
  | nil =>
    intro j
    simp [evalLoopFrom]
  | cons s rest ih =>
    intro j
    by_cases hj : cfg.testSize ≤ j
    · have hz : cfg.testSize - j = 0 := Nat.sub_eq_zero_of_le hj
      rw [evalLoopFrom, if_pos hj, hz]
      simp
    · have hpos : 0 < cfg.testSize - j := by omega
      have hn : min (cfg.testSize - j) (s :: rest).length
          = min (cfg.testSize - (j + 1)) rest.length + 1 := by
        simp only [List.length_cons]
        omega
      rw [evalLoopFrom, if_neg hj, hn, List.range'_succ, List.flatMap_cons, ih]


theorem sum_map_one (l : List Nat) : (l.map (fun _ => 1)).sum = l.length := by
  induction l with
  | nil => rfl
  | cons x xs ih => simp [ih, Nat.add_comm]

/-! ### Counting events inside one training step -/

theorem countP_trainStep_optim (v : ℚ) :
    (trainStepEvents v).countP isOptimStep = 1 := rfl

theorem countP_trainStep_log (e : Nat) (v : ℚ) :
    (trainStepEvents v).countP (isLogWriteFor e) = 0 := rfl

theorem countP_trainStep_origPlot (i : Nat) (v : ℚ) :
    (trainStepEvents v).countP (isOriginalPlotFor i) = 0 := rfl

theorem countP_trainStep_origAudio (i : Nat) (v : ℚ) :
    (trainStepEvents v).countP (isOriginalAudioFor i) = 0 := rfl

theorem countP_trainStep_ppgPlot (i : Nat) (v : ℚ) :
    (trainStepEvents v).countP (isPpgPlotFor i) = 0 := rfl

theorem countP_trainStep_reconPlot (v : ℚ) :
    (trainStepEvents v).countP isReconPlot = 0 := rfl

theorem countP_trainStep_reconAudio (v : ℚ) :
    (trainStepEvents v).countP isReconAudio = 0 := rfl

theorem countP_trainFlatMap_optim (bl : List ℚ) :
    (bl.flatMap trainStepEvents).countP isOptimStep = bl.length := by
  rw [countP_flatMap]
  simp [countP_trainStep_optim, sum_map_one]

theorem countP_trainFlatMap_zero (bl : List ℚ) (p : Ev → Bool)
    (hp : ∀ v, (trainStepEvents v).countP p = 0) :
    (bl.flatMap trainStepEvents).countP p = 0 := by
  rw [countP_flatMap]
  simp [hp]

/-! ### Counting events inside the evaluation loop -/

theorem countP_evalSample_log (cfg : Config) (e i j : Nat) (st : MState) :
    (evalSampleEvents cfg e j st).countP (isLogWriteFor i) = 0 := by
  by_cases he : e = cfg.saveEvery <;>
    simp [evalSampleEvents, he, List.countP_cons, List.countP_append,
      isLogWriteFor]

theorem countP_evalSample_optim (cfg : Config) (e j : Nat) (st : MState) :
    (evalSampleEvents cfg e j st).countP isOptimStep = 0 := by
  by_cases he : e = cfg.saveEvery <;>
    simp [evalSampleEvents, he, List.countP_cons, List.countP_append,
      isOptimStep]

theorem countP_evalSample_reconPlot (cfg : Config) (e j : Nat) (st : MState) :
    (evalSampleEvents cfg e j st).countP isReconPlot = 1 := by
  by_cases he : e = cfg.saveEvery <;>
    simp [evalSampleEvents, he, List.countP_cons, List.countP_append,
      isReconPlot]

theorem countP_evalSample_reconAudio (cfg : Config) (e j : Nat) (st : MState) :
    (evalSampleEvents cfg e j st).countP isReconAudio = 1 := by
  by_cases he : e = cfg.saveEvery <;>
    simp [evalSampleEvents, he, List.countP_cons, List.countP_append,
      isReconAudio]

theorem countP_evalSample_origPlot (cfg : Config) (e i j : Nat) (st : MState) :
    (evalSampleEvents cfg e j st).countP (isOriginalPlotFor i)
      = if e = cfg.saveEvery then (if j = i then 1 else 0) else 0 := by
  by_cases he : e = cfg.saveEvery <;>
    by_cases hji : j = i <;>
      simp [evalSampleEvents, he, hji, List.countP_cons, List.countP_append,
        isOriginalPlotFor, Ne.symm]

theorem countP_evalSample_origAudio (cfg : Config) (e i j : Nat) (st : MState) :
    (evalSampleEvents cfg e j st).countP (isOriginalAudioFor i)
      = if e = cfg.saveEvery then (if j = i then 1 else 0) else 0 := by
  by_cases he : e = cfg.saveEvery <;>
    by_cases hji : j = i <;>
      simp [evalSampleEvents, he, hji, List.countP_cons, List.countP_append,
        isOriginalAudioFor, Ne.symm]

theorem countP_evalLoop_reconPlot (cfg : Config) (e : Nat) (st : MState)
    (l : List Sample) :
    (evalLoopFrom cfg e st 0 l).countP isReconPlot
      = min cfg.testSize l.length := by
  rw [evalLoopFrom_eq, countP_flatMap_nat]
  simp [countP_evalSample_reconPlot, sum_map_one]

theorem countP_evalLoop_reconAudio (cfg : Config) (e : Nat) (st : MState)
    (l : List Sample) :
    (evalLoopFrom cfg e st 0 l).countP isReconAudio
      = min cfg.testSize l.length := by
  rw [evalLoopFrom_eq, countP_flatMap_nat]
  simp [countP_evalSample_reconAudio, sum_map_one]

theorem countP_evalLoop_log (cfg : Config) (e i : Nat) (st : MState)
    (l : List Sample) :
    (evalLoopFrom cfg e st 0 l).countP (isLogWriteFor i) = 0 := by
  rw [evalLoopFrom_eq, countP_flatMap_nat]
  simp [countP_evalSample_log]

theorem countP_evalLoop_optim (cfg : Config) (e : Nat) (st : MState)
    (l : List Sample) :
    (evalLoopFrom cfg e st 0 l).countP isOptimStep = 0 := by
  rw [evalLoopFrom_eq, countP_flatMap_nat]
  simp [countP_evalSample_optim]

theorem countP_evalSample_ppgPlot (cfg : Config) (e i j : Nat) (st : MState) :
    (evalSampleEvents cfg e j st).countP (isPpgPlotFor i)
      = if e = cfg.saveEvery then (if j = i then 1 else 0) else 0 := by
  by_cases he : e = cfg.saveEvery <;>
    by_cases hji : j = i <;>
      simp [evalSampleEvents, he, hji, List.countP_cons, List.countP_append,
        isPpgPlotFor, Ne.symm]

theorem countP_evalLoop_origPlot (cfg : Config) (e i : Nat) (st : MState)
    (l : List Sample) :
    (evalLoopFrom cfg e st 0 l).countP (isOriginalPlotFor i)
      = if e = cfg.saveEvery ∧ i < min cfg.testSize l.length then 1 else 0 := by
  rw [evalLoopFrom_eq, countP_flatMap_nat]
  by_cases he : e = cfg.saveEvery
  · simp only [countP_evalSample_origPlot, he, if_pos rfl, if_true]
    rw [sum_map_ite_of_nodup _ i 1 (List.nodup_range' ..)]
    have hmem : i ∈ List.range' 0 (min cfg.testSize l.length)
        ↔ i < min cfg.testSize l.length := by
      rw [List.mem_range'_1]
      omega
    simp [hmem, he]
  · simp [countP_evalSample_origPlot, he]

theorem countP_evalLoop_origAudio (cfg : Config) (e i : Nat) (st : MState)
    (l : List Sample) :
    (evalLoopFrom cfg e st 0 l).countP (isOriginalAudioFor i)
      = if e = cfg.saveEvery ∧ i < min cfg.testSize l.length then 1 else 0 := by
  rw [evalLoopFrom_eq, countP_flatMap_nat]
  by_cases he : e = cfg.saveEvery
  · simp only [countP_evalSample_origAudio, he, if_pos rfl, if_true]
    rw [sum_map_ite_of_nodup _ i 1 (List.nodup_range' ..)]
    have hmem : i ∈ List.range' 0 (min cfg.testSize l.length)
        ↔ i < min cfg.testSize l.length := by
      rw [List.mem_range'_1]
      omega
    simp [hmem, he]
  · simp [countP_evalSample_origAudio, he]

theorem countP_evalLoop_ppgPlot (cfg : Config) (e i : Nat) (st : MState)
    (l : List Sample) :
    (evalLoopFrom cfg e st 0 l).countP (isPpgPlotFor i)
      = if e = cfg.saveEvery ∧ i < min cfg.testSize l.length then 1 else 0 := by
  rw [evalLoopFrom_eq, countP_flatMap_nat]
  by_cases he : e = cfg.saveEvery
  · simp only [countP_evalSample_ppgPlot, he, if_pos rfl, if_true]
    rw [sum_map_ite_of_nodup _ i 1 (List.nodup_range' ..)]
    have hmem : i ∈ List.range' 0 (min cfg.testSize l.length)
        ↔ i < min cfg.testSize l.length := by
      rw [List.mem_range'_1]
      omega
    simp [hmem, he]
  · simp [countP_evalSample_ppgPlot, he]

/-! ### Counting events over one epoch iteration -/

theorem countP_epochTail_log (cfg : Config) (vs : List Sample) (e i : Nat) :
    (epochTail cfg vs e).countP (isLogWriteFor i) = 0 := by
  by_cases hr : cfg.localRank = 0
  · by_cases hm : e % cfg.saveEvery > 0
    · rw [epochTail, if_pos hr, if_pos hm]
      rfl
    · rw [epochTail, if_pos hr, if_neg hm]
      simp [List.countP_cons, List.countP_append, countP_evalLoop_log,
        isLogWriteFor]
  · rw [epochTail, if_neg hr]
    rfl

theorem countP_epochTail_optim (cfg : Config) (vs : List Sample) (e : Nat) :
    (epochTail cfg vs e).countP isOptimStep = 0 := by
  by_cases hr : cfg.localRank = 0
  · by_cases hm : e % cfg.saveEvery > 0
    · rw [epochTail, if_pos hr, if_pos hm]
      rfl
    · rw [epochTail, if_pos hr, if_neg hm]
      simp [List.countP_cons, List.countP_append, countP_evalLoop_optim,
        isOptimStep]
  · rw [epochTail, if_neg hr]
    rfl

theorem countP_epochTail_origPlot (cfg : Config) (vs : List Sample)
    (e i : Nat) :
    (epochTail cfg vs e).countP (isOriginalPlotFor i)
      = if cfg.localRank = 0 ∧ e % cfg.saveEvery = 0 ∧ e = cfg.saveEvery
           ∧ i < min cfg.testSize vs.length
        then 1 else 0 := by
  by_cases hr : cfg.localRank = 0
  · by_cases hm : e % cfg.saveEvery = 0
    · rw [epochTail, if_pos hr, if_neg (by omega)]
      simp [List.countP_cons, List.countP_append, countP_evalLoop_origPlot,
        isOriginalPlotFor, hr, hm]
    · rw [epochTail, if_pos hr, if_pos (by omega)]
      simp [hm]
  · rw [epochTail, if_neg hr]
    simp [hr]

theorem countP_epochTail_origAudio (cfg : Config) (vs : List Sample)
    (e i : Nat) :
    (epochTail cfg vs e).countP (isOriginalAudioFor i)
      = if cfg.localRank = 0 ∧ e % cfg.saveEvery = 0 ∧ e = cfg.saveEvery
           ∧ i < min cfg.testSize vs.length
        then 1 else 0 := by
  by_cases hr : cfg.localRank = 0
  · by_cases hm : e % cfg.saveEvery = 0
    · rw [epochTail, if_pos hr, if_neg (by omega)]
      simp [List.countP_cons, List.countP_append, countP_evalLoop_origAudio,
        isOriginalAudioFor, hr, hm]
    · rw [epochTail, if_pos hr, if_pos (by omega)]
      simp [hm]
  · rw [epochTail, if_neg hr]
    simp [hr]

theorem countP_epochTail_ppgPlot (cfg : Config) (vs : List Sample)
    (e i : Nat) :
    (epochTail cfg vs e).countP (isPpgPlotFor i)
      = if cfg.localRank = 0 ∧ e % cfg.saveEvery = 0 ∧ e = cfg.saveEvery
           ∧ i < min cfg.testSize vs.length
        then 1 else 0 := by
  by_cases hr : cfg.localRank = 0
  · by_cases hm : e % cfg.saveEvery = 0
    · rw [epochTail, if_pos hr, if_neg (by omega)]
      simp [List.countP_cons, List.countP_append, countP_evalLoop_ppgPlot,
        isPpgPlotFor, hr, hm]
    · rw [epochTail, if_pos hr, if_pos (by omega)]
      simp [hm]
  · rw [epochTail, if_neg hr]
    simp [hr]

theorem countP_epochTail_reconPlot (cfg : Config) (vs : List Sample)
    (e : Nat) :
    (epochTail cfg vs e).countP isReconPlot
      = if cfg.localRank = 0 ∧ e % cfg.saveEvery = 0
        then min cfg.testSize vs.length else 0 := by
  by_cases hr : cfg.localRank = 0
  · by_cases hm : e % cfg.saveEvery = 0
    · rw [epochTail, if_pos hr, if_neg (by omega)]
      simp [List.countP_cons, List.countP_append, countP_evalLoop_reconPlot,
        isReconPlot, hr, hm]
    · rw [epochTail, if_pos hr, if_pos (by omega)]
      simp [hm]
  · rw [epochTail, if_neg hr]
    simp [hr]

theorem countP_epochTail_reconAudio (cfg : Config) (vs : List Sample)
    (e : Nat) :
    (epochTail cfg vs e).countP isReconAudio
      = if cfg.localRank = 0 ∧ e % cfg.saveEvery = 0
        then min cfg.testSize vs.length else 0 := by
  by_cases hr : cfg.localRank = 0
  · by_cases hm : e % cfg.saveEvery = 0
    · rw [epochTail, if_pos hr, if_neg (by omega)]
      simp [List.countP_cons, List.countP_append, countP_evalLoop_reconAudio,
        isReconAudio, hr, hm]
    · rw [epochTail, if_pos hr, if_pos (by omega)]
      simp [hm]
  · rw [epochTail, if_neg hr]
    simp [hr]

theorem countP_epoch_log (cfg : Config) (bl : List ℚ) (vs : List Sample)
    (e i : Nat) :
    (epochEvents cfg bl vs e).countP (isLogWriteFor i)
      = if e = i then 1 else 0 := by
  simp only [epochEvents, List.countP_cons, List.countP_append,
    countP_trainFlatMap_zero bl _ (countP_trainStep_log i),
    countP_epochTail_log]
  by_cases hei : e = i <;> simp [isLogWriteFor, hei, Ne.symm]

theorem countP_epoch_optim (cfg : Config) (bl : List ℚ) (vs : List Sample)
    (e : Nat) :
    (epochEvents cfg bl vs e).countP isOptimStep = bl.length := by
  simp [epochEvents, List.countP_cons, List.countP_append,
    countP_trainFlatMap_optim, countP_epochTail_optim, isOptimStep]

theorem countP_epoch_origPlot (cfg : Config) (bl : List ℚ) (vs : List Sample)
    (e i : Nat) :
    (epochEvents cfg bl vs e).countP (isOriginalPlotFor i)
      = if cfg.localRank = 0 ∧ e % cfg.saveEvery = 0 ∧ e = cfg.saveEvery
           ∧ i < min cfg.testSize vs.length
        then 1 else 0 := by
  simp [epochEvents, List.countP_cons, List.countP_append,
    countP_trainFlatMap_zero bl _ (countP_trainStep_origPlot i),
    countP_epochTail_origPlot, isOriginalPlotFor]

theorem countP_epoch_origAudio (cfg : Config) (bl : List ℚ) (vs : List Sample)
    (e i : Nat) :
    (epochEvents cfg bl vs e).countP (isOriginalAudioFor i)
      = if cfg.localRank = 0 ∧ e % cfg.saveEvery = 0 ∧ e = cfg.saveEvery
           ∧ i < min cfg.testSize vs.length
        then 1 else 0 := by
  simp [epochEvents, List.countP_cons, List.countP_append,
    countP_trainFlatMap_zero bl _ (countP_trainStep_origAudio i),
    countP_epochTail_origAudio, isOriginalAudioFor]

theorem countP_epoch_ppgPlot (cfg : Config) (bl : List ℚ) (vs : List Sample)
    (e i : Nat) :
    (epochEvents cfg bl vs e).countP (isPpgPlotFor i)
      = if cfg.localRank = 0 ∧ e % cfg.saveEvery = 0 ∧ e = cfg.saveEvery
           ∧ i < min cfg.testSize vs.length
        then 1 else 0 := by
  simp [epochEvents, List.countP_cons, List.countP_append,
    countP_trainFlatMap_zero bl _ (countP_trainStep_ppgPlot i),
    countP_epochTail_ppgPlot, isPpgPlotFor]

theorem countP_epoch_reconPlot (cfg : Config) (bl : List ℚ) (vs : List Sample)
    (e : Nat) :
    (epochEvents cfg bl vs e).countP isReconPlot
      = if cfg.localRank = 0 ∧ e % cfg.saveEvery = 0
        then min cfg.testSize vs.length else 0 := by
  simp [epochEvents, List.countP_cons, List.countP_append,
    countP_trainFlatMap_zero bl _ countP_trainStep_reconPlot,
    countP_epochTail_reconPlot, isReconPlot]

theorem countP_epoch_reconAudio (cfg : Config) (bl : List ℚ) (vs : List Sample)
    (e : Nat) :
    (epochEvents cfg bl vs e).countP isReconAudio
      = if cfg.localRank = 0 ∧ e % cfg.saveEvery = 0
        then min cfg.testSize vs.length else 0 := by
  simp [epochEvents, List.countP_cons, List.countP_append,
    countP_trainFlatMap_zero bl _ countP_trainStep_reconAudio,
    countP_epochTail_reconAudio, isReconAudio]

/-! ### Checkpoint-epoch extraction -/

theorem ckptEpochs_append (l1 l2 : List Ev) :
    ckptEpochs (l1 ++ l2) = ckptEpochs l1 ++ ckptEpochs l2 :=
  List.filterMap_append ..

theorem ckptEpochs_trainFlatMap (bl : List ℚ) :
    ckptEpochs (bl.flatMap trainStepEvents) = [] := by
  induction bl with
  | nil => rfl
  | cons v vs ih => rw [List.flatMap_cons, ckptEpochs_append, ih]; rfl

theorem ckptEpochs_evalSample (cfg : Config) (e j : Nat) (st : MState) :
    ckptEpochs (evalSampleEvents cfg e j st) = [] := by
  by_cases he : e = cfg.saveEvery <;>
    simp [evalSampleEvents, he, ckptEpochs]

theorem ckptEpochs_evalLoop (cfg : Config) (e : Nat) (st : MState)
    (l : List Sample) :
    ckptEpochs (evalLoopFrom cfg e st 0 l) = [] := by
  rw [evalLoopFrom_eq]
  generalize List.range' 0 (min (cfg.testSize - 0) l.length) = idxs
  induction idxs with
  | nil => rfl
  | cons j js ih =>
    rw [List.flatMap_cons, ckptEpochs_append, ih, ckptEpochs_evalSample]
    rfl

theorem ckptEpochs_epoch (cfg : Config) (bl : List ℚ) (vs : List Sample)
    (e : Nat) :
    ckptEpochs (epochEvents cfg bl vs e)
      = if cfg.localRank = 0 ∧ e % cfg.saveEvery = 0 then [e] else [] := by
  have htail : ckptEpochs (epochTail cfg vs e)
      = if cfg.localRank = 0 ∧ e % cfg.saveEvery = 0 then [e] else [] := by
    by_cases hr : cfg.localRank = 0
    · by_cases hm : e % cfg.saveEvery = 0
      · rw [epochTail, if_pos hr, if_neg (by omega)]
        show ckptEpochs (Ev.modelEval :: _) = _
        rw [show ckptEpochs (Ev.modelEval ::
            (evalLoopFrom cfg e { mode := Mode.eval, gradEnabled := false } 0 vs
             ++ [Ev.saveCkpt e Mode.eval true]))
          = ckptEpochs (evalLoopFrom cfg e
              { mode := Mode.eval, gradEnabled := false } 0 vs
             ++ [Ev.saveCkpt e Mode.eval true]) from rfl]
        rw [ckptEpochs_append, ckptEpochs_evalLoop]
        simp [ckptEpochs, hr, hm]
      · rw [epochTail, if_pos hr, if_pos (by omega)]
        simp [hm, ckptEpochs]
    · rw [epochTail, if_neg hr]
      simp [hr, ckptEpochs]
  show ckptEpochs (Ev.modelTrain :: _) = _
  rw [show ckptEpochs (Ev.modelTrain ::
      (bl.flatMap trainStepEvents
       ++ Ev.logWrite e (npMean bl) :: epochTail cfg vs e))
    = ckptEpochs (bl.flatMap trainStepEvents
       ++ Ev.logWrite e (npMean bl) :: epochTail cfg vs e) from rfl]
  rw [ckptEpochs_append, ckptEpochs_trainFlatMap]
  rw [show ckptEpochs (Ev.logWrite e (npMean bl) :: epochTail cfg vs e)
    = ckptEpochs (epochTail cfg vs e) from rfl]
  simpa using htail

/-! ### The epoch range -/

theorem epochRange_nodup (cfg : Config) : (epochRange cfg).Nodup := by
  refine (List.nodup_range cfg.epochs).map ?_
  intro a b h
  exact Nat.add_left_cancel h

theorem mem_epochRange (cfg : Config) (e : Nat) :
    e ∈ epochRange cfg
      ↔ cfg.epochStart ≤ e ∧ e < cfg.epochStart + cfg.epochs := by
  unfold epochRange
  simp only [List.mem_map, List.mem_range]
  constructor
  · rintro ⟨k, hk, rfl⟩
    omega
  · intro h
    exact ⟨e - cfg.epochStart, by omega, by omega⟩

theorem epochRange_pairwise (cfg : Config) :
    (epochRange cfg).Pairwise (· < ·) := by
  unfold epochRange
  rw [List.pairwise_map]
  exact (List.pairwise_lt_range cfg.epochs).imp
    (fun h => Nat.add_lt_add_left h cfg.epochStart)

theorem pairwise_lt_flatMap (l : List Nat) (g : Nat → List Nat)
    (hl : l.Pairwise (· < ·)) (hg : ∀ e, g e = [] ∨ g e = [e]) :
    (l.flatMap g).Pairwise (· < ·) := by
  induction l with
  | nil => exact List.Pairwise.nil
  | cons a l ih =>
    rw [List.flatMap_cons, List.pairwise_append]
    rcases List.pairwise_cons.mp hl with ⟨ha, hl2⟩
    refine ⟨?_, ih hl2, ?_⟩
    · rcases hg a with h | h <;> simp [h]
    · intro x hx y hy
      have hxa : x = a := by
        rcases hg a with h | h
        · rw [h] at hx
          cases hx
        · rw [h] at hx
          simpa using hx
      rcases List.mem_flatMap.mp hy with ⟨b, hb, hyb⟩
      have hyb2 : y = b := by
        rcases hg b with h | h
        · rw [h] at hyb
          cases hyb
        · rw [h] at hyb
          simpa using hyb
      rw [hxa, hyb2]
      exact ha b hb

/-! ### Run-level counting -/

theorem countP_runEvents (cfg : Config) (shardOf : Nat → List Sample)
    (lossOf : List Sample → ℚ) (vs : List Sample) (p : Ev → Bool) :
    (runEvents cfg shardOf lossOf vs).countP p
      = ((epochRange cfg).map (fun e =>
          (epochEvents cfg (epochBatchLosses cfg shardOf lossOf e) vs e).countP
            p)).sum := by
  rw [runEvents, countP_flatMap_nat]

theorem countP_run_log (cfg : Config) (shardOf : Nat → List Sample)
    (lossOf : List Sample → ℚ) (vs : List Sample) (e : Nat) :
    (runEvents cfg shardOf lossOf vs).countP (isLogWriteFor e)
      = if cfg.epochStart ≤ e ∧ e < cfg.epochStart + cfg.epochs
        then 1 else 0 := by
  rw [countP_runEvents]
  simp only [countP_epoch_log]
  rw [sum_map_ite_of_nodup _ e 1 (epochRange_nodup cfg)]
  rw [if_congr (mem_epochRange cfg e) rfl rfl]

theorem logWrite_mem_epochEvents (cfg : Config) (bl : List ℚ)
    (vs : List Sample) (e : Nat) :
    Ev.logWrite e (npMean bl) ∈ epochEvents cfg bl vs e := by
  rw [epochEvents]
  exact List.mem_cons_of_mem _
    (List.mem_append_right _ (List.mem_cons_self _ _))

theorem countP_run_origPlot (cfg : Config) (shardOf : Nat → List Sample)
    (lossOf : List Sample → ℚ) (vs : List Sample) (i : Nat)
    (hrank : cfg.localRank = 0) (hs : 0 < cfg.saveEvery) :
    (runEvents cfg shardOf lossOf vs).countP (isOriginalPlotFor i)
      = if cfg.epochStart ≤ cfg.saveEvery
           ∧ cfg.saveEvery < cfg.epochStart + cfg.epochs
           ∧ i < min cfg.testSize vs.length
        then 1 else 0 := by
  rw [countP_runEvents]
  simp only [countP_epoch_origPlot]
  by_cases hi : i < min cfg.testSize vs.length
  · have hfun : ∀ e : Nat,
        (if cfg.localRank = 0 ∧ e % cfg.saveEvery = 0 ∧ e = cfg.saveEvery
            ∧ i < min cfg.testSize vs.length
         then 1 else 0)
          = if e = cfg.saveEvery then 1 else 0 := by
      intro e
      by_cases he : e = cfg.saveEvery
      · subst he
        simp [hrank, hi, Nat.mod_self]
      · simp [he]
    simp only [hfun]
    rw [sum_map_ite_of_nodup _ cfg.saveEvery 1 (epochRange_nodup cfg)]
    rw [if_congr (mem_epochRange cfg cfg.saveEvery) rfl rfl]
    by_cases hrange : cfg.epochStart ≤ cfg.saveEvery
        ∧ cfg.saveEvery < cfg.epochStart + cfg.epochs
    · simp [hrange, hi]
    · simp only [if_neg hrange]
      rw [if_neg (by tauto)]
  · have hfun : ∀ e : Nat,
        (if cfg.localRank = 0 ∧ e % cfg.saveEvery = 0 ∧ e = cfg.saveEvery
            ∧ i < min cfg.testSize vs.length
         then 1 else 0) = 0 := by
      intro e
      simp [hi]
    simp only [hfun]
    rw [if_neg (by tauto)]
    simp

theorem countP_run_origAudio (cfg : Config) (shardOf : Nat → List Sample)
    (lossOf : List Sample → ℚ) (vs : List Sample) (i : Nat)
    (hrank : cfg.localRank = 0) (hs : 0 < cfg.saveEvery) :
    (runEvents cfg shardOf lossOf vs).countP (isOriginalAudioFor i)
      = if cfg.epochStart ≤ cfg.saveEvery
           ∧ cfg.saveEvery < cfg.epochStart + cfg.epochs
           ∧ i < min cfg.testSize vs.length
        then 1 else 0 := by
  rw [countP_runEvents]
  simp only [countP_epoch_origAudio]
  by_cases hi : i < min cfg.testSize vs.length
  · have hfun : ∀ e : Nat,
        (if cfg.localRank = 0 ∧ e % cfg.saveEvery = 0 ∧ e = cfg.saveEvery
            ∧ i < min cfg.testSize vs.length
         then 1 else 0)
          = if e = cfg.saveEvery then 1 else 0 := by
      intro e
      by_cases he : e = cfg.saveEvery
      · subst he
        simp [hrank, hi, Nat.mod_self]
      · simp [he]
    simp only [hfun]
    rw [sum_map_ite_of_nodup _ cfg.saveEvery 1 (epochRange_nodup cfg)]
    rw [if_congr (mem_epochRange cfg cfg.saveEvery) rfl rfl]
    by_cases hrange : cfg.epochStart ≤ cfg.saveEvery
        ∧ cfg.saveEvery < cfg.epochStart + cfg.epochs
    · simp [hrange, hi]
    · simp only [if_neg hrange]
      rw [if_neg (by tauto)]
  · have hfun : ∀ e : Nat,
        (if cfg.localRank = 0 ∧ e % cfg.saveEvery = 0 ∧ e = cfg.saveEvery
            ∧ i < min cfg.testSize vs.length
         then 1 else 0) = 0 := by
      intro e
      simp [hi]
    simp only [hfun]
    rw [if_neg (by tauto)]
    simp

theorem countP_run_ppgPlot (cfg : Config) (shardOf : Nat → List Sample)
    (lossOf : List Sample → ℚ) (vs : List Sample) (i : Nat)
    (hrank : cfg.localRank = 0) (hs : 0 < cfg.saveEvery) :
    (runEvents cfg shardOf lossOf vs).countP (isPpgPlotFor i)
      = if cfg.epochStart ≤ cfg.saveEvery
           ∧ cfg.saveEvery < cfg.epochStart + cfg.epochs
           ∧ i < min cfg.testSize vs.length
        then 1 else 0 := by
  rw [countP_runEvents]
  simp only [countP_epoch_ppgPlot]
  by_cases hi : i < min cfg.testSize vs.length
  · have hfun : ∀ e : Nat,
        (if cfg.localRank = 0 ∧ e % cfg.saveEvery = 0 ∧ e = cfg.saveEvery
            ∧ i < min cfg.testSize vs.length
         then 1 else 0)
          = if e = cfg.saveEvery then 1 else 0 := by
      intro e
      by_cases he : e = cfg.saveEvery
      · subst he
        simp [hrank, hi, Nat.mod_self]
      · simp [he]
    simp only [hfun]
    rw [sum_map_ite_of_nodup _ cfg.saveEvery 1 (epochRange_nodup cfg)]
    rw [if_congr (mem_epochRange cfg cfg.saveEvery) rfl rfl]
    by_cases hrange : cfg.epochStart ≤ cfg.saveEvery
        ∧ cfg.saveEvery < cfg.epochStart + cfg.epochs
    · simp [hrange, hi]
    · simp only [if_neg hrange]
      rw [if_neg (by tauto)]
  · have hfun : ∀ e : Nat,
        (if cfg.localRank = 0 ∧ e % cfg.saveEvery = 0 ∧ e = cfg.saveEvery
            ∧ i < min cfg.testSize vs.length
         then 1 else 0) = 0 := by
      intro e
      simp [hi]
    simp only [hfun]
    rw [if_neg (by tauto)]
    simp

/-! ### Membership and state-tagging lemmas -/

theorem modelEval_not_mem_trainStep (v : ℚ) :
    Ev.modelEval ∉ trainStepEvents v := by
  simp [trainStepEvents]

theorem modelEval_not_mem_evalSample (cfg : Config) (e j : Nat) (st : MState) :
    Ev.modelEval ∉ evalSampleEvents cfg e j st := by
  by_cases he : e = cfg.saveEvery <;> simp [evalSampleEvents, he]

theorem modelEval_not_mem_evalLoop (cfg : Config) (e : Nat) (st : MState)
    (l : List Sample) :
    Ev.modelEval ∉ evalLoopFrom cfg e st 0 l := by
  rw [evalLoopFrom_eq]
  intro h
  rcases List.mem_flatMap.mp h with ⟨j, _, hj⟩
  exact modelEval_not_mem_evalSample cfg e j st hj

theorem modelEval_mem_epochTail (cfg : Config) (vs : List Sample) (e : Nat) :
    Ev.modelEval ∈ epochTail cfg vs e
      ↔ cfg.localRank = 0 ∧ e % cfg.saveEvery = 0 := by
  by_cases hr : cfg.localRank = 0
  · by_cases hm : e % cfg.saveEvery = 0
    · rw [epochTail, if_pos hr, if_neg (by omega)]
      simp [hr, hm]
    · rw [epochTail, if_pos hr, if_pos (by omega)]
      simp [hm]
  · rw [epochTail, if_neg hr]
    simp [hr]

theorem modelEval_mem_epochEvents (cfg : Config) (bl : List ℚ)
    (vs : List Sample) (e : Nat) :
    Ev.modelEval ∈ epochEvents cfg bl vs e
      ↔ cfg.localRank = 0 ∧ e % cfg.saveEvery = 0 := by
  rw [← modelEval_mem_epochTail cfg vs e]
  rw [epochEvents]
  simp only [List.mem_cons, List.mem_append]
  constructor
  · rintro (h | h | h | h)
    · cases h
    · rcases List.mem_flatMap.mp h with ⟨v, _, hv⟩
      exact absurd hv (modelEval_not_mem_trainStep v)
    · cases h
    · exact h
  · intro h
    exact Or.inr (Or.inr (Or.inr h))

theorem dump_not_mem_trainStep (a : Artifact) (md : Mode) (g : Bool) (v : ℚ) :
    Ev.dump a md g ∉ trainStepEvents v := by
  simp [trainStepEvents]

theorem dump_mem_evalSample_state (cfg : Config) (e j : Nat) (st : MState)
    (a : Artifact) (md : Mode) (g : Bool)
    (h : Ev.dump a md g ∈ evalSampleEvents cfg e j st) :
    md = st.mode ∧ g = st.gradEnabled := by
  by_cases he : e = cfg.saveEvery <;>
    simp only [evalSampleEvents, he, if_pos, if_neg, List.mem_cons,
      List.mem_append, if_true, if_false, List.mem_singleton,
      List.nil_append] at h <;>
    aesop

theorem inference_mem_evalSample_state (cfg : Config) (e j : Nat) (st : MState)
    (i : Nat) (md : Mode) (g : Bool)
    (h : Ev.inference i md g ∈ evalSampleEvents cfg e j st) :
    md = st.mode ∧ g = st.gradEnabled := by
  by_cases he : e = cfg.saveEvery <;>
    simp only [evalSampleEvents, he, if_pos, if_neg, List.mem_cons,
      List.mem_append, if_true, if_false, List.mem_singleton,
      List.nil_append] at h <;>
    aesop

theorem dump_mem_evalLoop_state (cfg : Config) (e : Nat) (st : MState)
    (l : List Sample) (a : Artifact) (md : Mode) (g : Bool)
    (h : Ev.dump a md g ∈ evalLoopFrom cfg e st 0 l) :
    md = st.mode ∧ g = st.gradEnabled := by
  rw [evalLoopFrom_eq] at h
  rcases List.mem_flatMap.mp h with ⟨j, _, hj⟩
  exact dump_mem_evalSample_state cfg e j st a md g hj

theorem inference_mem_evalLoop_state (cfg : Config) (e : Nat) (st : MState)
    (l : List Sample) (i : Nat) (md : Mode) (g : Bool)
    (h : Ev.inference i md g ∈ evalLoopFrom cfg e st 0 l) :
    md = st.mode ∧ g = st.gradEnabled := by
  rw [evalLoopFrom_eq] at h
  rcases List.mem_flatMap.mp h with ⟨j, _, hj⟩
  exact inference_mem_evalSample_state cfg e j st i md g hj

theorem dump_mem_epochEvents_state (cfg : Config) (bl : List ℚ)
    (vs : List Sample) (e : Nat) (a : Artifact) (md : Mode) (g : Bool)
    (h : Ev.dump a md g ∈ epochEvents cfg bl vs e) :
    md = Mode.eval ∧ g = false := by
  rw [epochEvents] at h
  rcases List.mem_cons.mp h with h2 | h2
  · cases h2
  rcases List.mem_append.mp h2 with h3 | h3
  · rcases List.mem_flatMap.mp h3 with ⟨v, _, hv⟩
    exact absurd hv (dump_not_mem_trainStep a md g v)
  rcases List.mem_cons.mp h3 with h4 | h4
  · cases h4
  rw [epochTail] at h4
  by_cases hr : cfg.localRank = 0
  · rw [if_pos hr] at h4
    by_cases hm : e % cfg.saveEvery > 0
    · rw [if_pos hm] at h4
      cases h4
    · rw [if_neg hm] at h4
      rcases List.mem_cons.mp h4 with h5 | h5
      · cases h5
      rcases List.mem_append.mp h5 with h6 | h6
      · exact dump_mem_evalLoop_state cfg e _ vs a md g h6
      · rcases List.mem_singleton.mp h6 with h7
        cases h7
  · rw [if_neg hr] at h4
    cases h4

theorem inference_mem_epochEvents_state (cfg : Config) (bl : List ℚ)
    (vs : List Sample) (e : Nat) (i : Nat) (md : Mode) (g : Bool)
    (h : Ev.inference i md g ∈ epochEvents cfg bl vs e) :
    md = Mode.eval ∧ g = false := by
  rw [epochEvents] at h
  rcases List.mem_cons.mp h with h2 | h2
  · cases h2
  rcases List.mem_append.mp h2 with h3 | h3
  · rcases List.mem_flatMap.mp h3 with ⟨v, _, hv⟩
    simp [trainStepEvents] at hv
  rcases List.mem_cons.mp h3 with h4 | h4
  · cases h4
  rw [epochTail] at h4
  by_cases hr : cfg.localRank = 0
  · rw [if_pos hr] at h4
    by_cases hm : e % cfg.saveEvery > 0
    · rw [if_pos hm] at h4
      cases h4
    · rw [if_neg hm] at h4
      rcases List.mem_cons.mp h4 with h5 | h5
      · cases h5
      rcases List.mem_append.mp h5 with h6 | h6
      · exact inference_mem_evalLoop_state cfg e _ vs i md g h6
      · rcases List.mem_singleton.mp h6 with h7
        cases h7
  · rw [if_neg hr] at h4
    cases h4

theorem epochEvents_split_at_save (cfg : Config) (bl : List ℚ)
    (vs : List Sample) (e : Nat)
    (hr : cfg.localRank = 0) (hm : e % cfg.saveEvery = 0) :
    epochEvents cfg bl vs e
      = (Ev.modelTrain ::
          (bl.flatMap trainStepEvents
           ++ Ev.logWrite e (npMean bl) :: Ev.modelEval ::
              evalLoopFrom cfg e { mode := Mode.eval, gradEnabled := false } 0
                vs))
        ++ [Ev.saveCkpt e Mode.eval true] := by
  rw [epochEvents, epochTail, if_pos hr, if_neg (by omega)]
  simp [List.append_assoc]

/-! ### The training-step window inside the epoch trace -/

theorem trainSegment_window (bl : List ℚ) :
    ∀ (k : Nat) (hk : k < bl.length) (suffix : List Ev),
      ((bl.flatMap trainStepEvents ++ suffix).drop (6 * k)).take 6
        = trainStepEvents (bl.get ⟨k, hk⟩) := by
  induction bl with
  | nil =>
    intro k hk
    cases hk
  | cons v vs ih =>
    intro k hk suffix
    cases k with
    | zero =>
      rw [Nat.mul_zero, List.drop_zero, List.flatMap_cons, List.append_assoc]
      rw [show (6 : Nat) = (trainStepEvents v).length from rfl, List.take_left]
      rfl
    | succ k2 =>
      rw [List.flatMap_cons, List.append_assoc]
      have hd6 : List.drop 6
          (trainStepEvents v ++ (vs.flatMap trainStepEvents ++ suffix))
          = vs.flatMap trainStepEvents ++ suffix :=
        List.drop_left (trainStepEvents v) (vs.flatMap trainStepEvents ++ suffix)
      have h6 : 6 * (k2 + 1) = 6 + 6 * k2 := by ring
      rw [h6, ← List.drop_drop, hd6]
      exact ih k2 (Nat.lt_of_succ_lt_succ hk) suffix

/-! ### Key-lookup lemmas for the checkpoint round-trip -/

theorem lookupVal_map_dec (md : List (Nat × Int))
    (hnd : (md.map Prod.fst).Nodup) :
    ∀ p ∈ md,
      lookupVal (md.map (fun q => (QKey.dec q.1, q.2))) (QKey.dec p.1)
        = some p.2 := by
  induction md with
  | nil =>
    intro p hp
    cases hp
  | cons q md ih =>
    intro p hp
    rcases List.nodup_cons.mp hnd with ⟨hq, hnd2⟩
    rcases List.mem_cons.mp hp with rfl | hp2
    · simp [lookupVal]
    · have hne : ¬(QKey.dec q.1 = QKey.dec p.1) := by
        intro h
        have h2 : q.1 = p.1 := by
          injection h
        exact hq (h2 ▸ List.mem_map.mpr ⟨p, hp2, rfl⟩)
      rw [List.map_cons, lookupVal, if_neg hne]
      exact ih hnd2 p hp2

theorem load_map_restores (fd : List (Nat × Int)) :
    ∀ (md : List (Nat × Int)) (sd : List (QKey × Int)),
      fd.map Prod.fst = md.map Prod.fst →
      (∀ p ∈ md, lookupVal sd (QKey.dec p.1) = some p.2) →
      fd.map (fun p => (p.1, (lookupVal sd (QKey.dec p.1)).getD p.2)) = md := by
  induction fd with
  | nil =>
    intro md sd hk _
    cases md with
    | nil => rfl
    | cons m md2 => simp at hk
  | cons f fd ih =>
    intro md sd hk hsd
    cases md with
    | nil => simp at hk
    | cons m md2 =>
      simp only [List.map_cons, List.cons.injEq] at hk
      rcases hk with ⟨h1, h2⟩
      have hm : lookupVal sd (QKey.dec m.1) = some m.2 :=
        hsd m (List.mem_cons_self _ _)
      rw [List.map_cons]
      congr 1
      · rw [h1, hm]
        rfl
      · exact ih md2 sd h2 (fun p hp => hsd p (List.mem_cons_of_mem _ hp))

theorem ckptEpochs_flatMap_nat (f : Nat → List Ev) (l : List Nat) :
    ckptEpochs (l.flatMap f) = l.flatMap (fun x => ckptEpochs (f x)) := by
  induction l with
  | nil => rfl
  | cons x xs ih =>
    rw [List.flatMap_cons, List.flatMap_cons, ckptEpochs_append, ih]

/-! ## Claim theorems -/

/-- Claim C1, counterexample: the aggregated-metrics log write is NOT
performed only by the primary process.  A process with `local_rank = 1`
still appends exactly one `Epoch 1: loss = ...` line for its single epoch,
because the write at lines 146-151 of `train_dec.py` is not guarded by
`local_rank == 0`. -/
theorem C1_log_write_not_primary_only :
    cfgRank1.localRank ≠ 0
    ∧ (runEvents cfgRank1 (fun _ => []) (fun _ => 0) []).countP
        (isLogWriteFor 1) = 1 := by
  constructor
  · decide
  · decide

/-- Claim C1 (amended): for every epoch in the configured range, after that
epoch's training pass, EVERY rank — not only the primary — appends exactly
one line `Epoch %d: loss = %.4f` with `%d` equal to the epoch number and the
loss equal to the arithmetic mean of that rank's per-batch losses for the
epoch, to `logs_dec/train_dec.log`. -/
theorem C1_every_rank_appends_one_log_line (cfg : Config)
    (shardOf : Nat → List Sample) (lossOf : List Sample → ℚ)
    (vs : List Sample) (e : Nat)
    (h1 : cfg.epochStart ≤ e) (h2 : e < cfg.epochStart + cfg.epochs) :
    (runEvents cfg shardOf lossOf vs).countP (isLogWriteFor e) = 1
    ∧ Ev.logWrite e (npMean (epochBatchLosses cfg shardOf lossOf e))
        ∈ runEvents cfg shardOf lossOf vs := by
  constructor
  · rw [countP_run_log]
    simp [h1, h2]
  · rw [runEvents]
    exact List.mem_flatMap.mpr ⟨e, (mem_epochRange cfg e).mpr ⟨h1, h2⟩,
      logWrite_mem_epochEvents cfg _ vs e⟩

/-- Witness for the amended claim C1 at a concrete non-primary
configuration. -/
theorem C1_every_rank_appends_one_log_line_witness :
    (runEvents cfgRank1 (fun _ => [0]) (fun _ => 2) [0]).countP
      (isLogWriteFor 1) = 1 :=
  (C1_every_rank_appends_one_log_line cfgRank1 (fun _ => [0]) (fun _ => 2)
    [0] 1 (by decide) (by decide)).1

/-- Claim C2, counterexample: a resumed run with `--epoch-start 5 -e 3 -s 1`
on the primary rank has epoch 5 as its first cadence-triggered epoch
(`5 % save_every == 0`), its validation prefix holds one sample, yet the
original baseline artifacts for sample 0 are written ZERO times in the whole
run — not exactly once — because line 169 tests `epoch == save_every` (never
true here), not "first cadence-triggered epoch". -/
theorem C2_original_dump_skipped_on_resume :
    cfgResume.localRank = 0
    ∧ 5 ∈ epochRange cfgResume
    ∧ 5 % cfgResume.saveEvery = 0
    ∧ min cfgResume.testSize ([0] : List Sample).length = 1
    ∧ (runEvents cfgResume (fun _ => []) (fun _ => 0) [0]).countP
        (isOriginalPlotFor 0) = 0
    ∧ (runEvents cfgResume (fun _ => []) (fun _ => 0) [0]).countP
        (isOriginalAudioFor 0) = 0
    ∧ (runEvents cfgResume (fun _ => []) (fun _ => 0) [0]).countP
        (isPpgPlotFor 0) = 0 := by
  refine ⟨rfl, by decide, rfl, rfl, by decide, by decide, by decide⟩

/-- Claim C2 (amended): on the primary rank, the original mel/audio baseline
artifacts for validation sample `i` (with `i < min(test_size, |validation|)`)
are written exactly once per run when the epoch numbered `save_every` falls
inside the configured epoch range (that epoch trivially satisfies the
cadence, and is the first cadence-triggered epoch whenever
`epoch_start ≤ save_every`), and are never written otherwise — in particular
never when `epoch_start > save_every`. -/
theorem C2_originals_dumped_iff_saveEvery_in_range (cfg : Config)
    (shardOf : Nat → List Sample) (lossOf : List Sample → ℚ)
    (vs : List Sample) (i : Nat)
    (hrank : cfg.localRank = 0) (hs : 0 < cfg.saveEvery) :
    (runEvents cfg shardOf lossOf vs).countP (isOriginalPlotFor i)
      = (if cfg.epochStart ≤ cfg.saveEvery
            ∧ cfg.saveEvery < cfg.epochStart + cfg.epochs
            ∧ i < min cfg.testSize vs.length
         then 1 else 0)
    ∧ (runEvents cfg shardOf lossOf vs).countP (isOriginalAudioFor i)
      = (if cfg.epochStart ≤ cfg.saveEvery
            ∧ cfg.saveEvery < cfg.epochStart + cfg.epochs
            ∧ i < min cfg.testSize vs.length
         then 1 else 0)
    ∧ (runEvents cfg shardOf lossOf vs).countP (isPpgPlotFor i)
      = (if cfg.epochStart ≤ cfg.saveEvery
            ∧ cfg.saveEvery < cfg.epochStart + cfg.epochs
            ∧ i < min cfg.testSize vs.length
         then 1 else 0) :=
  ⟨countP_run_origPlot cfg shardOf lossOf vs i hrank hs,
   countP_run_origAudio cfg shardOf lossOf vs i hrank hs,
   countP_run_ppgPlot cfg shardOf lossOf vs i hrank hs⟩

/-- Witness for the amended claim C2 at a concrete fresh-run configuration
where the originals are dumped exactly once. -/
theorem C2_originals_dumped_iff_saveEvery_in_range_witness :
    (runEvents cfgPrimary (fun _ => []) (fun _ => 0) [0]).countP
        (isOriginalPlotFor 0)
      = (if cfgPrimary.epochStart ≤ cfgPrimary.saveEvery
            ∧ cfgPrimary.saveEvery < cfgPrimary.epochStart + cfgPrimary.epochs
            ∧ 0 < min cfgPrimary.testSize ([0] : List Sample).length
         then 1 else 0) :=
  (C2_originals_dumped_iff_saveEvery_in_range cfgPrimary (fun _ => [])
    (fun _ => 0) [0] 0 rfl (by decide)).1

/-- Claim C3: checkpoint round-trip.  Saving a checkpoint (a file with keys
`state_dict` and `optim`) and loading it through the resume path restores
decoder parameter tensors and optimizer state identical to those saved, and
every key of the saved `state_dict` belongs to the decoder sub-module — no
encoder parameter is serialized. -/
theorem C3_checkpoint_roundtrip (m fresh : ModelModule)
    (opt freshOpt : OptimState)
    (hkeys : fresh.decoder.map Prod.fst = m.decoder.map Prod.fst)
    (hnodup : (m.decoder.map Prod.fst).Nodup) :
    (fresh.load_state_dict (saveCheckpoint m opt).2.state_dict).decoder
        = m.decoder
    ∧ loadOptimState freshOpt (saveCheckpoint m opt).2.optim = opt
    ∧ ∀ p ∈ (saveCheckpoint m opt).2.state_dict, p.1.isDec = true := by
  have hsd : (saveCheckpoint m opt).2.state_dict
      = m.decoder.map (fun q => (QKey.dec q.1, q.2)) := by
    simp [saveCheckpoint, ModelModule.state_dict]
  refine ⟨?_, rfl, ?_⟩
  · show fresh.decoder.map (fun p =>
        (p.1, (lookupVal (saveCheckpoint m opt).2.state_dict
          (QKey.dec p.1)).getD p.2)) = m.decoder
    rw [hsd]
    exact load_map_restores fresh.decoder m.decoder _ hkeys
      (lookupVal_map_dec m.decoder hnodup)
  · intro p hp
    rw [hsd] at hp
    rcases List.mem_map.mp hp with ⟨q, _, rfl⟩
    rfl

/-- Witness for claim C3 at concrete model and optimizer states. -/
theorem C3_checkpoint_roundtrip_witness :
    (mFresh.load_state_dict (saveCheckpoint mLive optLive).2.state_dict).decoder
      = mLive.decoder :=
  (C3_checkpoint_roundtrip mLive mFresh optLive optFresh (by decide)
    (by decide)).1

/-- Claim C4: the evaluation-and-artifact-dump pass of an epoch runs if and
only if the process is the primary (rank 0) and `epoch % save_every == 0`;
every inference and artifact dump it performs happens in eval mode with
gradient tracking disabled; and when the pass runs, the checkpoint save is
the last event of the epoch, hence after every artifact dump of that
epoch. -/
theorem C4_eval_guard_mode_order (cfg : Config) (bl : List ℚ)
    (vs : List Sample) (e : Nat) :
    (Ev.modelEval ∈ epochEvents cfg bl vs e
       ↔ cfg.localRank = 0 ∧ e % cfg.saveEvery = 0)
    ∧ (∀ a md g, Ev.dump a md g ∈ epochEvents cfg bl vs e →
         md = Mode.eval ∧ g = false)
    ∧ (∀ i md g, Ev.inference i md g ∈ epochEvents cfg bl vs e →
         md = Mode.eval ∧ g = false)
    ∧ (cfg.localRank = 0 → e % cfg.saveEvery = 0 →
         ∃ l1, epochEvents cfg bl vs e
           = l1 ++ [Ev.saveCkpt e Mode.eval true]) :=
  ⟨modelEval_mem_epochEvents cfg bl vs e,
   fun a md g h => dump_mem_epochEvents_state cfg bl vs e a md g h,
   fun i md g h => inference_mem_epochEvents_state cfg bl vs e i md g h,
   fun hr hm => ⟨_, epochEvents_split_at_save cfg bl vs e hr hm⟩⟩

/-- Witness for claim C4 on the primary rank at a cadence epoch. -/
theorem C4_eval_guard_mode_order_witness :
    Ev.modelEval ∈ epochEvents cfgPrimary [] [0] 1 :=
  (C4_eval_guard_mode_order cfgPrimary [] [0] 1).1.mpr ⟨rfl, rfl⟩

/-- Claim C5: a cadence-triggered evaluation pass writes exactly
`min(test_size, |validation set|)` reconstructed plots and exactly as many
reconstructed audio files: iteration stops at `test_size` samples, or at the
set's natural end if it is shorter, without padding or error. -/
theorem C5_recon_pair_count (cfg : Config) (bl : List ℚ) (vs : List Sample)
    (e : Nat) (hrank : cfg.localRank = 0) (hcad : e % cfg.saveEvery = 0) :
    (epochEvents cfg bl vs e).countP isReconPlot = min cfg.testSize vs.length
    ∧ (epochEvents cfg bl vs e).countP isReconAudio
        = min cfg.testSize vs.length := by
  rw [countP_epoch_reconPlot, countP_epoch_reconAudio]
  simp [hrank, hcad]

/-- Witness for claim C5: a two-sample `test_size` over a one-sample
validation set writes exactly one reconstructed pair. -/
theorem C5_recon_pair_count_witness :
    (epochEvents cfgPrimary [] [0] 1).countP isReconPlot
      = min cfgPrimary.testSize ([0] : List Sample).length :=
  (C5_recon_pair_count cfgPrimary [] [0] 1 rfl rfl).1

/-- Claim C6: for every batch `k` of an epoch, the six events of its training
step appear contiguously and in source order — zero gradients, compute the
scalar loss, backpropagate, clip the decoder gradients to max-norm 1, one
optimizer update, append the loss to the epoch's loss sequence — and the
epoch performs exactly one optimizer update per batch. -/
theorem C6_train_step_order (cfg : Config) (bl : List ℚ) (vs : List Sample)
    (e k : Nat) (hk : k < bl.length) :
    ((epochEvents cfg bl vs e).drop (1 + 6 * k)).take 6
      = [Ev.zeroGrad, Ev.computeLoss (bl.get ⟨k, hk⟩), Ev.backward,
         Ev.clipGradDecoder 1, Ev.optimStep, Ev.appendLoss (bl.get ⟨k, hk⟩)]
    ∧ (epochEvents cfg bl vs e).countP isOptimStep = bl.length := by
  constructor
  · rw [epochEvents, Nat.add_comm 1 (6 * k), List.drop_succ_cons]
    exact trainSegment_window bl k hk _
  · exact countP_epoch_optim cfg bl vs e

/-- Witness for claim C6 on a concrete one-batch epoch. -/
theorem C6_train_step_order_witness :
    ((epochEvents cfgPrimary [2] [] 1).drop (1 + 6 * 0)).take 6
      = [Ev.zeroGrad, Ev.computeLoss 2, Ev.backward, Ev.clipGradDecoder 1,
         Ev.optimStep, Ev.appendLoss 2] :=
  (C6_train_step_order cfgPrimary [2] [] 1 0 (by decide)).1

/-- Claim C7: within a single run, the epoch numbers of the checkpoint files
`vc_<epoch>.pt`, in the order they are saved, are strictly increasing and
pairwise distinct — each save targets a filename whose epoch number exceeds
every previously saved one, so no earlier checkpoint file of the run is
overwritten. -/
theorem C7_checkpoint_epochs_strictly_increasing (cfg : Config)
    (shardOf : Nat → List Sample) (lossOf : List Sample → ℚ)
    (vs : List Sample) (hs : 0 < cfg.saveEvery) :
    (ckptEpochs (runEvents cfg shardOf lossOf vs)).Pairwise (· < ·)
    ∧ (ckptEpochs (runEvents cfg shardOf lossOf vs)).Nodup := by
  have hpw : (ckptEpochs (runEvents cfg shardOf lossOf vs)).Pairwise
      (· < ·) := by
    rw [runEvents, ckptEpochs_flatMap_nat]
    apply pairwise_lt_flatMap _ _ (epochRange_pairwise cfg)
    intro e
    rw [ckptEpochs_epoch]
    by_cases h : cfg.localRank = 0 ∧ e % cfg.saveEvery = 0
    · right
      rw [if_pos h]
    · left
      rw [if_neg h]
  exact ⟨hpw, hpw.imp (fun hlt => Nat.ne_of_lt hlt)⟩

/-- Witness for claim C7 on a concrete two-epoch primary run. -/
theorem C7_checkpoint_epochs_strictly_increasing_witness :
    (ckptEpochs (runEvents cfgPrimary (fun _ => []) (fun _ => 0)
      [])).Pairwise (· < ·) :=
  (C7_checkpoint_epochs_strictly_increasing cfgPrimary (fun _ => [])
    (fun _ => 0) [] (by decide)).1

/-- Claim C8: the checkpoint save leaves the live model unchanged apart from
its on-disk side effect: the encoder child is detached before serialization
and the identical reference is reattached afterwards, and neither the
decoder parameters nor the optimizer state are modified by the save. -/
theorem C8_save_preserves_live_state (m : ModelModule) (opt : OptimState) :
    (saveCheckpoint m opt).1 = m
    ∧ (saveCheckpoint m opt).1.encoder = m.encoder
    ∧ (saveCheckpoint m opt).1.decoder = m.decoder
    ∧ (saveCheckpoint m opt).2.optim = opt :=
  ⟨rfl, rfl, rfl, rfl⟩

/-- Claim C9: with `drop_last=True`, every batch consumed by the training
step holds exactly `batch_size` samples, an epoch performs exactly
`floor(shard size / batch size)` training steps (one optimizer update each),
and the samples of the dropped trailing partial batch — everything beyond
position `batch_size * floor(shard size / batch size)` of the shard — are
not trained on in that epoch. -/
theorem C9_drop_last_batching (cfg : Config) (shard : List Sample)
    (lossOf : List Sample → ℚ) (vs : List Sample) (e : Nat)
    (hb : 0 < cfg.batchSize) :
    (∀ c ∈ dataBatches cfg.batchSize shard, c.length = cfg.batchSize)
    ∧ (dataBatches cfg.batchSize shard).length
        = shard.length / cfg.batchSize
    ∧ (dataBatches cfg.batchSize shard).flatten
        = shard.take (cfg.batchSize * (shard.length / cfg.batchSize))
    ∧ (epochEvents cfg ((dataBatches cfg.batchSize shard).map lossOf) vs
         e).countP isOptimStep = shard.length / cfg.batchSize := by
  obtain ⟨hA, hB, hC⟩ := dataBatches_spec cfg.batchSize shard hb
  exact ⟨hA, hB, hC, by rw [countP_epoch_optim, List.length_map, hB]⟩

/-- Witness for claim C9: a five-sample shard at batch size two yields two
full batches. -/
theorem C9_drop_last_batching_witness :
    (dataBatches cfgPrimary.batchSize [0, 1, 2, 3, 4]).length
      = ([0, 1, 2, 3, 4] : List Sample).length / cfgPrimary.batchSize :=
  (C9_drop_last_batching cfgPrimary [0, 1, 2, 3, 4] (fun _ => 0) [] 1
    (by decide)).2.1

/-- Claim C10: an epoch whose shard yields zero batches (shard smaller than
the batch size) still completes: the log line is appended with a NaN loss
field (`np.mean` of the empty loss sequence, embedded as `none`), and on the
primary rank a cadence-triggered evaluation pass and checkpoint save still
proceed. -/
theorem C10_empty_epoch_logs_nan_and_saves (cfg : Config)
    (shard : List Sample) (lossOf : List Sample → ℚ) (vs : List Sample)
    (e : Nat) (hshort : shard.length < cfg.batchSize) :
    dataBatches cfg.batchSize shard = []
    ∧ npMean ((dataBatches cfg.batchSize shard).map lossOf) = none
    ∧ Ev.logWrite e none
        ∈ epochEvents cfg ((dataBatches cfg.batchSize shard).map lossOf) vs e
    ∧ (cfg.localRank = 0 → e % cfg.saveEvery = 0 →
        Ev.modelEval
            ∈ epochEvents cfg ((dataBatches cfg.batchSize shard).map lossOf)
                vs e
        ∧ ∃ l1,
            epochEvents cfg ((dataBatches cfg.batchSize shard).map lossOf)
                vs e
              = l1 ++ [Ev.saveCkpt e Mode.eval true]) := by
  have hnil := dataBatches_eq_nil_of_short cfg.batchSize shard hshort
  rw [hnil]
  refine ⟨rfl, rfl, ?_, ?_⟩
  · exact logWrite_mem_epochEvents cfg [] vs e
  · intro hr hm
    exact ⟨(modelEval_mem_epochEvents cfg [] vs e).mpr ⟨hr, hm⟩,
      ⟨_, epochEvents_split_at_save cfg [] vs e hr hm⟩⟩

/-- Witness for claim C10 on a one-sample shard at batch size two. -/
theorem C10_empty_epoch_logs_nan_and_saves_witness :
    Ev.logWrite 1 none
      ∈ epochEvents cfgPrimary
          ((dataBatches cfgPrimary.batchSize [0]).map (fun _ => (0 : ℚ)))
          [] 1 :=
  (C10_empty_epoch_logs_nan_and_saves cfgPrimary [0] (fun _ => 0) [] 1
    (by decide)).2.2.1

end PPGDiffVC
